import Mathlib

/-!
Shallow embedding of `src/lib/AudioUltra/Regions/Segment.ts` (class `Segment`),
the time-interval region overlay of the waveform canvas.  Times and pixel
coordinates are modelled as rationals; JS `undefined`-able parameters become
`Option`; event emission is modelled as an explicit list of emitted events.
The external collaborators (waveform, visualizer) are modelled as records of
the read-only values the segment consumes from them.
-/

set_option autoImplicit false

namespace AudioUltra

/-- Modelled from the spec: `pixelsToTime` from `Common/Utils` (not under
`src/`): `pixelToTime(px, effectiveWidth, duration) = px/effectiveWidth * duration`. -/
def pixelsToTime (px effectiveWidth duration : ℚ) : ℚ :=
  px / effectiveWidth * duration

/-- Modelled from the spec: `clamp` from `Common/Utils` (not under `src/`):
limits a value to the interval `[lo, hi]` ("clamping absorbs out-of-range
inputs rather than erroring"). -/
def clamp (x lo hi : ℚ) : ℚ :=
  min (max x lo) hi

/-- An rgba color value (channel quadruple). -/
structure Rgba where
  r : ℚ
  g : ℚ
  b : ℚ
  a : ℚ
  deriving DecidableEq, Repr

/-- Modelled from the spec: `RgbaColorArray` from `Common/Color` (not under
`src/`): "a mutable color value with an internal `base` and a derived
`current` (darkened) state".  `rgba` is the current value, `base` the
pre-darkened one. -/
structure RgbaColorArray where
  base : Rgba
  rgba : Rgba
  deriving DecidableEq, Repr

/-- Modelled from the spec: `rgba(value)` from `Common/Color` builds a color
whose base and current values are the given one. -/
def rgba (c : Rgba) : RgbaColorArray :=
  { base := c, rgba := c }

/-- Modelled from the spec: `darken(v)` darkens the current value (scaling the
rgb channels towards black by `v`), leaving the stored base untouched so that
`reset` can restore it. -/
def RgbaColorArray.darken (c : RgbaColorArray) (v : ℚ) : RgbaColorArray :=
  { c with rgba := { r := c.rgba.r * (1 - v), g := c.rgba.g * (1 - v),
                     b := c.rgba.b * (1 - v), a := c.rgba.a } }

/-- Modelled from the spec: `reset()` "restores base color": the current value
becomes the base again. -/
def RgbaColorArray.reset (c : RgbaColorArray) : RgbaColorArray :=
  { c with rgba := c.base }

/-- Modelled from the spec: `clone()` copies the color value. -/
def RgbaColorArray.clone (c : RgbaColorArray) : RgbaColorArray := c

/-- The default color `rgba('#ccc')` of a freshly constructed segment. -/
def cccGray : Rgba := { r := 204, g := 204, b := 204, a := 1 }

/-- The events a segment invokes: local (`update`, `updateEnd`) and global
(`regionUpdated`, `regionUpdatedEnd`, `regionRemoved`, `regionSelected`). -/
inductive Ev where
  | update
  | updateEnd
  | regionUpdated
  | regionUpdatedEnd
  | regionRemoved
  | regionSelected
  deriving DecidableEq, Repr

/-- `draggingStartPosition`: grab pixel position plus the bounds at grab time. -/
structure DragStart where
  grabPosition : ℚ
  start : ℚ
  «end» : ℚ
  deriving DecidableEq, Repr

/-- `isGrabbingEdge`: which edge, if any, the gesture grabbed. -/
structure GrabEdge where
  isRightEdge : Bool
  isLeftEdge : Bool
  deriving DecidableEq, Repr

/-- The read-only values the segment consumes from the owning `Waveform`. -/
structure Waveform where
  duration : ℚ
  zoom : ℚ
  playing : Bool
  deriving DecidableEq, Repr

/-- The read-only values the segment consumes from the `Visualizer`:
viewport pixel `width`, fractional `getScrollLeft()` and `zoomedWidth`. -/
structure Visualizer where
  width : ℚ
  scrollLeft : ℚ
  zoomedWidth : ℚ
  deriving DecidableEq, Repr

/-- The `Segment` entity state.  `isDestroyed` comes from the `Events` base
class (`Common/Events`, not under `src/`), modelled from the spec: teardown
"marks destroyed". -/
structure Segment where
  id : String
  start : ℚ
  «end» : ℚ
  color : RgbaColorArray
  handleColor : RgbaColorArray
  selected : Bool
  highlighted : Bool
  updateable : Bool
  deleteable : Bool
  visible : Bool
  handleWidth : ℚ
  isDragging : Bool
  draggingStartPosition : Option DragStart
  isGrabbingEdge : GrabEdge
  isDestroyed : Bool
  deriving DecidableEq, Repr

/-- `SegmentOptions` (the constructor options object); optional fields are
`Option`s, `color` carries an already-parsed rgba value. -/
structure SegmentOptions where
  id : Option String := none
  start : ℚ
  «end» : ℚ
  color : Option Rgba := none
  selected : Option Bool := none
  updateable : Option Bool := none
  deleteable : Option Bool := none
  visible : Option Bool := none
  deriving DecidableEq, Repr

/-- The `Segment` constructor.  Throws (modelled as `Except.error`) when
`options.start < 0` or `options.end < 0`; otherwise initializes the fields
exactly as the source does.  `freshId` stands for the `nanoid(5)` value used
when `options.id` is absent.  Note that the source constructor reads
`options.id`, `options.start`, `options.end`, `options.selected`,
`options.updateable` and `options.visible` but never `options.color` or
`options.deleteable`. -/
def constructSegment (options : SegmentOptions) (freshId : String) :
    Except String Segment :=
  if options.start < 0 then .error "Segment start must be greater than 0"
  else if options.«end» < 0 then .error "Segment end must be greater than 0"
  else .ok
    { id := options.id.getD freshId
      start := options.start
      «end» := options.«end»
      color := rgba cccGray
      handleColor := ((rgba cccGray).clone).darken (6/10)
      selected := options.selected.getD false
      highlighted := false
      updateable := options.updateable.getD true
      deleteable := true
      visible := options.visible.getD true
      handleWidth := 2
      isDragging := false
      draggingStartPosition := none
      isGrabbingEdge := { isRightEdge := false, isLeftEdge := false }
      isDestroyed := false }

/-- `Partial<SegmentOptions>`: every field optional. -/
structure PartialSegmentOptions where
  id : Option String := none
  start : Option ℚ := none
  «end» : Option ℚ := none
  color : Option Rgba := none
  selected : Option Bool := none
  updateable : Option Bool := none
  deleteable : Option Bool := none
  visible : Option Bool := none
  deriving DecidableEq, Repr

/-- `update(options: Partial<SegmentOptions>)`: bails out when the segment is
not updateable and the options carry an explicit falsy `updateable`
(`options.updateable !== undefined && !options.updateable`); otherwise each
provided field is applied independently (`id` is never applied). -/
def Segment.update (s : Segment) (o : PartialSegmentOptions) : Segment :=
  if s.updateable = false ∧ o.updateable = some false then s
  else
    { s with
      updateable := o.updateable.getD s.updateable
      deleteable := o.deleteable.getD s.deleteable
      start := o.start.getD s.start
      «end» := o.«end».getD s.«end»
      selected := o.selected.getD s.selected
      visible := o.visible.getD s.visible
      color := match o.color with
        | some c => rgba c
        | none => s.color }

/-- `setVisibility(visible)`: no-op when unchanged, else commits and fires
`update` / `regionUpdated`. -/
def Segment.setVisibility (s : Segment) (visible : Bool) :
    Segment × List Ev :=
  if visible = s.visible then (s, [])
  else ({ s with visible := visible }, [.update, .regionUpdated])

/-- `updatePosition(start?, end?)`: no-op when not updateable; missing bounds
default to the current ones; swaps when `start > end`; commits and fires
`update` / `regionUpdated`. -/
def Segment.updatePosition (s : Segment) (start? end? : Option ℚ) :
    Segment × List Ev :=
  if s.updateable = false then (s, [])
  else
    let newStart := start?.getD s.start
    let newEnd := end?.getD s.«end»
    let p := if newStart > newEnd then (newEnd, newStart) else (newStart, newEnd)
    ({ s with start := p.1, «end» := p.2 }, [.update, .regionUpdated])

/-- `setColor(color)`: updates base and handle colors (handle at 60% darken). -/
def Segment.setColor (s : Segment) (c : Rgba) : Segment :=
  { s with color := rgba c, handleColor := (rgba c).darken (6/10) }

/-- `setColorDarken(value)`: darkens the color only when its current value
still equals its base. -/
def Segment.setColorDarken (s : Segment) (value : ℚ) : Segment :=
  if s.color.rgba = s.color.base then { s with color := s.color.darken value }
  else s

/-- `updateColor(color)`: no-op when not updateable; else `setColor` plus
update events. -/
def Segment.updateColor (s : Segment) (c : Rgba) : Segment × List Ev :=
  if s.updateable = false then (s, [])
  else (s.setColor c, [.update, .regionUpdated])

/-- `handleSelected(selected?)`: no-op when not updateable; toggles when the
argument is omitted; darkens by 50% when the argument is truthy, resets the
color otherwise (note: the source tests the *argument*, so an omitted argument
also resets); fires update events.  The playback-pause side effect acts on the
external waveform, not on the segment state. -/
def Segment.handleSelected (s : Segment) (selected? : Option Bool) :
    Segment × List Ev :=
  if s.updateable = false then (s, [])
  else
    let s := { s with selected := selected?.getD (!s.selected) }
    let s := match selected? with
      | some true => s.setColorDarken (1/2)
      | _ => { s with color := s.color.reset }
    (s, [.update, .regionUpdated])

/-- `handleHighlighted(highlighted?)`: suppressed when not updateable or while
selected; toggles when omitted; darkens by 50% when the new value is set,
resets otherwise; fires update events. -/
def Segment.handleHighlighted (s : Segment) (highlighted? : Option Bool) :
    Segment × List Ev :=
  if s.updateable = false ∨ s.selected = true then (s, [])
  else
    let s := { s with highlighted := highlighted?.getD (!s.highlighted) }
    let s := if s.highlighted then s.setColorDarken (1/2)
             else { s with color := s.color.reset }
    (s, [.update, .regionUpdated])

/-- `remove()`: no-op when not deleteable; otherwise fires the global
`regionRemoved` notification and changes no field. -/
def Segment.remove (s : Segment) : Segment × List Ev :=
  if s.deleteable = false then (s, [])
  else (s, [.regionRemoved])

/-- `destroy(notify = true)`: no-op when not deleteable or already destroyed;
optionally fires `remove()` first; then `super.destroy()` — modelled from the
spec for the `Events` base class (not under `src/`): releases listeners and
marks the object destroyed. -/
def Segment.destroy (s : Segment) (notify : Bool) : Segment × List Ev :=
  if s.deleteable = false ∨ s.isDestroyed = true then (s, [])
  else
    let evs := if notify then (s.remove).2 else []
    ({ s with isDestroyed := true }, evs)

/-- Getter `xStart`: left pixel coordinate of the segment. -/
def Segment.xStart (s : Segment) (w : Waveform) (v : Visualizer) : ℚ :=
  let offsetX := s.start / w.duration * v.width - v.width * v.scrollLeft
  offsetX * w.zoom

/-- Getter `width`: pixel width of the segment. -/
def Segment.width (s : Segment) (w : Waveform) (v : Visualizer) : ℚ :=
  let regionWidth := (s.«end» - s.start) / w.duration * v.width
  regionWidth * w.zoom

/-- Getter `xEnd = xStart + width`. -/
def Segment.xEnd (s : Segment) (w : Waveform) (v : Visualizer) : ℚ :=
  s.xStart w v + s.width w v

/-- The time delta of a drag step: the cursor pixel position (plus scroll,
floored at 0) relative to the grab position, converted to seconds. -/
def dragSeconds (dsp : DragStart) (v : Visualizer) (duration cursorX : ℚ) : ℚ :=
  let currentPosition0 := cursorX + v.scrollLeft
  let currentPosition := if currentPosition0 < 0 then 0 else currentPosition0
  let newPosition := currentPosition - dsp.grabPosition
  pixelsToTime newPosition v.zoomedWidth duration

/-- `handleDrag(e)`: no-op when not updateable or not armed; otherwise
recomputes the bounds from the grab-time reference frame
(`draggingStartPosition`) and the pinned edges (`isGrabbingEdge`), and commits
them through `updatePosition`.  `cursorX` stands for
`getCursorPositionX(e, container)`. -/
def Segment.handleDrag (s : Segment) (w : Waveform) (v : Visualizer)
    (cursorX : ℚ) : Segment × List Ev :=
  if s.updateable = false then (s, [])
  else match s.draggingStartPosition with
    | none => (s, [])
    | some dsp =>
      let s := { s with isDragging := true }
      let freezeStart := s.isGrabbingEdge.isRightEdge
      let freezeEnd := s.isGrabbingEdge.isLeftEdge
      let isResizing := freezeStart || freezeEnd
      let seconds := dragSeconds dsp v w.duration cursorX
      let timeDiff := dsp.«end» - dsp.start
      let newStart := if freezeEnd then dsp.start + seconds
                      else clamp (dsp.start + seconds) 0 (w.duration - timeDiff)
      let startTime := if freezeStart then dsp.start else newStart
      let endTime := if freezeEnd then dsp.«end»
                     else clamp (dsp.«end» + seconds)
                            (newStart + (if isResizing then 0 else timeDiff))
                            w.duration
      s.updatePosition (some (clamp startTime 0 w.duration))
        (some (clamp endTime 0 w.duration))

/-! Concrete states used in witnesses and counterexamples. -/

/-- The segment produced by `constructSegment { start := a, end := b } i`
(for non-negative bounds); spelled out for use in concrete statements. -/
def plainSegment (i : String) (a b : ℚ) : Segment :=
  { id := i
    start := a
    «end» := b
    color := rgba cccGray
    handleColor := ((rgba cccGray).clone).darken (6/10)
    selected := false
    highlighted := false
    updateable := true
    deleteable := true
    visible := true
    handleWidth := 2
    isDragging := false
    draggingStartPosition := none
    isGrabbingEdge := { isRightEdge := false, isLeftEdge := false }
    isDestroyed := false }

/-- A segment whose `updateable` flag has been cleared. -/
def lockedSegment : Segment :=
  { plainSegment "locked" 1 2 with updateable := false }

/-! Arithmetic facts about `clamp`. -/

lemma clamp_eq_self (x lo hi : ℚ) (h1 : lo ≤ x) (h2 : x ≤ hi) :
    clamp x lo hi = x := by
  unfold clamp
  rw [max_eq_left h1, min_eq_left h2]

lemma clamp_le_right (x lo hi : ℚ) : clamp x lo hi ≤ hi := by
  unfold clamp
  exact min_le_right _ _

lemma le_clamp_left (x lo hi : ℚ) (h : lo ≤ hi) : lo ≤ clamp x lo hi := by
  unfold clamp
  exact le_min (le_max_right _ _) h

/-- For a pure move within `[0, dur]`, the clamped end lands exactly at width
distance from the clamped start. -/
lemma drag_move_eq (a b dur d : ℚ) (h0 : 0 ≤ a) (_hab : a ≤ b) (hbd : b ≤ dur) :
    clamp (b + d) (clamp (a + d) 0 (dur - (b - a)) + (b - a)) dur
      = clamp (a + d) 0 (dur - (b - a)) + (b - a) := by
  unfold clamp
  rcases le_total (a + d) 0 with h1 | h1
  · rw [max_eq_right h1,
      min_eq_left (show (0:ℚ) ≤ dur - (b - a) by linarith),
      max_eq_right (show b + d ≤ 0 + (b - a) by linarith),
      min_eq_left (show (0:ℚ) + (b - a) ≤ dur by linarith)]
  · rw [max_eq_left h1]
    rcases le_total (a + d) (dur - (b - a)) with h2 | h2
    · rw [min_eq_left h2,
        max_eq_right (show b + d ≤ a + d + (b - a) by linarith),
        min_eq_left (show a + d + (b - a) ≤ dur by linarith)]
    · rw [min_eq_right h2,
        max_eq_left (show dur - (b - a) + (b - a) ≤ b + d by linarith),
        min_eq_right (show dur ≤ b + d by linarith)]
      linarith

/-! ### Claims -/

/-- C7: the derived geometry getters satisfy
`xStart = ((start/duration)*viewportWidth - viewportWidth*scrollPosition)*zoom`,
`width = ((end-start)/duration*viewportWidth)*zoom` and `xEnd = xStart + width`;
in particular the segment `{start:10, end:20}` with `duration=100`, `zoom=1`,
`viewportWidth=1000`, `scrollPosition=0` has `xStart=100`, `width=100`,
`xEnd=200`. -/
theorem c7_geometry :
    (∀ (s : Segment) (w : Waveform) (v : Visualizer),
      s.xStart w v = (s.start / w.duration * v.width - v.width * v.scrollLeft) * w.zoom ∧
      s.width w v = (s.«end» - s.start) / w.duration * v.width * w.zoom ∧
      s.xEnd w v = s.xStart w v + s.width w v) ∧
    ((plainSegment "p" 10 20).xStart
        { duration := 100, zoom := 1, playing := false }
        { width := 1000, scrollLeft := 0, zoomedWidth := 1000 } = 100 ∧
     (plainSegment "p" 10 20).width
        { duration := 100, zoom := 1, playing := false }
        { width := 1000, scrollLeft := 0, zoomedWidth := 1000 } = 100 ∧
     (plainSegment "p" 10 20).xEnd
        { duration := 100, zoom := 1, playing := false }
        { width := 1000, scrollLeft := 0, zoomedWidth := 1000 } = 200) := by
  refine ⟨fun s w v => ⟨rfl, rfl, rfl⟩, ?_, ?_, ?_⟩ <;>
    norm_num [plainSegment, Segment.xStart, Segment.width, Segment.xEnd]

/-- C9: `remove()` leaves every field unchanged in both cases; it emits no
event at all when `deleteable` is false, and exactly one event, the global
`regionRemoved`, when `deleteable` is true. -/
theorem c9_remove (s : Segment) :
    (s.remove).1 = s ∧
    (s.remove).2.count Ev.regionRemoved = (if s.deleteable = true then 1 else 0) ∧
    (s.remove).2.length = (if s.deleteable = true then 1 else 0) := by
  by_cases h : s.deleteable = true <;> simp [Segment.remove, h]

/-- C6: construction fails exactly when `start < 0` or `end < 0`; otherwise it
succeeds and commits the given `start` and `end`. -/
theorem c6_construct_validation (o : SegmentOptions) (fid : String) :
    ((∃ msg, constructSegment o fid = .error msg) ↔ (o.start < 0 ∨ o.«end» < 0)) ∧
    (0 ≤ o.start → 0 ≤ o.«end» →
      ∃ s, constructSegment o fid = .ok s ∧ s.start = o.start ∧ s.«end» = o.«end») := by
  by_cases h1 : o.start < 0
  · refine ⟨⟨fun _ => Or.inl h1,
      fun _ => ⟨"Segment start must be greater than 0", ?_⟩⟩,
      fun hs _ => absurd h1 (not_lt.mpr hs)⟩
    unfold constructSegment
    rw [if_pos h1]
  · by_cases h2 : o.«end» < 0
    · refine ⟨⟨fun _ => Or.inr h2,
        fun _ => ⟨"Segment end must be greater than 0", ?_⟩⟩,
        fun _ he => absurd h2 (not_lt.mpr he)⟩
      unfold constructSegment
      rw [if_neg h1, if_pos h2]
    · refine ⟨⟨?_, ?_⟩, ?_⟩
      · rintro ⟨msg, hmsg⟩
        unfold constructSegment at hmsg
        rw [if_neg h1, if_neg h2] at hmsg
        exact absurd hmsg (by simp)
      · rintro (h | h)
        · exact absurd h h1
        · exact absurd h h2
      · intro _ _
        have hok : constructSegment o fid = .ok
            { id := o.id.getD fid
              start := o.start
              «end» := o.«end»
              color := rgba cccGray
              handleColor := ((rgba cccGray).clone).darken (6/10)
              selected := o.selected.getD false
              highlighted := false
              updateable := o.updateable.getD true
              deleteable := true
              visible := o.visible.getD true
              handleWidth := 2
              isDragging := false
              draggingStartPosition := none
              isGrabbingEdge := { isRightEdge := false, isLeftEdge := false }
              isDestroyed := false } := by
          unfold constructSegment
          rw [if_neg h1, if_neg h2]
        exact ⟨_, hok, rfl, rfl⟩

/-- C6 witness: construction with `start = 1`, `end = 2` succeeds and commits
those bounds. -/
theorem c6_witness :
    (0:ℚ) ≤ 1 ∧ (0:ℚ) ≤ 2 ∧
    ∃ s, constructSegment { start := 1, «end» := 2 } "w6" = .ok s ∧
      s.start = 1 ∧ s.«end» = 2 :=
  ⟨by norm_num, by norm_num,
    (c6_construct_validation { start := 1, «end» := 2 } "w6").2
      (by norm_num) (by norm_num)⟩

/-- C10: the constructor never reads `options.deleteable`: every successfully
constructed segment has `deleteable = true`, so `remove()` fires the global
`regionRemoved` notification on it. -/
theorem c10_deleteable_ignored (o : SegmentOptions) (fid : String) (s : Segment)
    (h : constructSegment o fid = .ok s) :
    s.deleteable = true ∧ (s.remove).2 = [Ev.regionRemoved] := by
  unfold constructSegment at h
  by_cases h1 : o.start < 0
  · rw [if_pos h1] at h
    exact absurd h (by simp)
  · rw [if_neg h1] at h
    by_cases h2 : o.«end» < 0
    · rw [if_pos h2] at h
      exact absurd h (by simp)
    · rw [if_neg h2] at h
      injection h with h
      subst h
      exact ⟨rfl, rfl⟩

/-- C10 witness: even with `deleteable := false` in the options, the
constructed segment is deleteable and `remove()` emits `regionRemoved`. -/
theorem c10_witness :
    constructSegment { start := 1, «end» := 2, deleteable := some false } "w10"
      = .ok (plainSegment "w10" 1 2) ∧
    (plainSegment "w10" 1 2).deleteable = true ∧
    ((plainSegment "w10" 1 2).remove).2 = [Ev.regionRemoved] :=
  ⟨rfl,
    c10_deleteable_ignored { start := 1, «end» := 2, deleteable := some false }
      "w10" (plainSegment "w10" 1 2) rfl⟩

/-- C1 counterexample: the constructor commits `start = 5 > end = 3` without
swapping, so the invariant `start ≤ end` is not enforced on construction. -/
theorem c1_counterexample :
    constructSegment { start := 5, «end» := 3 } "c1" = .ok (plainSegment "c1" 5 3) ∧
    (plainSegment "c1" 5 3).start = 5 ∧ (plainSegment "c1" 5 3).«end» = 3 ∧
    ¬((plainSegment "c1" 5 3).start ≤ (plainSegment "c1" 5 3).«end») := by
  refine ⟨rfl, rfl, rfl, ?_⟩
  norm_num [plainSegment]

/-- C1 (amended): only `updatePosition` enforces the invariant: on an
updateable segment the committed bounds are the min and max of the provided
(or defaulted) bounds, hence `start ≤ end` afterwards; construction and
`update(partial)` commit the provided values unswapped. -/
theorem c1_updatePosition_swaps (s : Segment) (a b : Option ℚ)
    (hu : s.updateable = true) :
    (s.updatePosition a b).1.start = min (a.getD s.start) (b.getD s.«end») ∧
    (s.updatePosition a b).1.«end» = max (a.getD s.start) (b.getD s.«end») ∧
    (s.updatePosition a b).1.start ≤ (s.updatePosition a b).1.«end» := by
  unfold Segment.updatePosition
  rw [if_neg (by simp [hu])]
  dsimp only
  by_cases hc : a.getD s.start > b.getD s.«end»
  · rw [if_pos hc]
    exact ⟨(min_eq_right (le_of_lt hc)).symm,
      (max_eq_left (le_of_lt hc)).symm, le_of_lt hc⟩
  · rw [if_neg hc]
    push_neg at hc
    exact ⟨(min_eq_left hc).symm, (max_eq_right hc).symm, hc⟩

/-- C1 witness: `updatePosition (some 5) (some 3)` on an updateable segment
commits the swapped pair `(3, 5)`. -/
theorem c1_witness :
    (plainSegment "a1" 0 0).updateable = true ∧
    ((plainSegment "a1" 0 0).updatePosition (some 5) (some 3)).1.start ≤
      ((plainSegment "a1" 0 0).updatePosition (some 5) (some 3)).1.«end» :=
  ⟨rfl, (c1_updatePosition_swaps (plainSegment "a1" 0 0) (some 5) (some 3) rfl).2.2⟩

/-- C4 counterexample: on a non-updateable segment, `update { start := 5 }`
(options that do not mention `updateable` at all, hence do not explicitly
re-enable it) still commits the new `start`, instead of refusing entirely. -/
theorem c4_counterexample :
    lockedSegment.updateable = false ∧
    lockedSegment.start = 1 ∧
    (lockedSegment.update { start := some 5 }).start = 5 := by
  exact ⟨rfl, rfl, rfl⟩

/-- C4 (amended): `update` refuses entirely exactly when the segment is
non-updateable and the options carry an explicit `updateable: false`; in every
other case (updateable segment, or `options.updateable` absent or `true`) each
provided recognized field is applied and the missing ones are kept (`id` is
never applied by `update`). -/
theorem c4_update_guard (s : Segment) (o : PartialSegmentOptions) :
    (s.updateable = false → o.updateable = some false → s.update o = s) ∧
    (s.updateable = true ∨ o.updateable ≠ some false →
      (s.update o).start = o.start.getD s.start ∧
      (s.update o).«end» = o.«end».getD s.«end» ∧
      (s.update o).updateable = o.updateable.getD s.updateable ∧
      (s.update o).deleteable = o.deleteable.getD s.deleteable ∧
      (s.update o).selected = o.selected.getD s.selected ∧
      (s.update o).visible = o.visible.getD s.visible ∧
      (s.update o).color = (match o.color with
        | some c => rgba c
        | none => s.color) ∧
      (s.update o).id = s.id) := by
  constructor
  · intro hu hopt
    unfold Segment.update
    rw [if_pos ⟨hu, hopt⟩]
  · intro h
    have hguard : ¬(s.updateable = false ∧ o.updateable = some false) := by
      rcases h with h | h
      · intro hc
        rw [h] at hc
        exact absurd hc.1 (by simp)
      · intro hc
        exact h hc.2
    unfold Segment.update
    rw [if_neg hguard]
    exact ⟨rfl, rfl, rfl, rfl, rfl, rfl, rfl, rfl⟩

/-- C4 witness: re-enabling `updateable` on a locked segment applies the
provided fields. -/
theorem c4_witness :
    (lockedSegment.update { updateable := some true, start := some 7 }).start =
      (some (7:ℚ)).getD lockedSegment.start :=
  ((c4_update_guard lockedSegment
      { updateable := some true, start := some 7 }).2 (Or.inr (by decide))).1

/-- A destroyed (but still updateable) segment, for the C5 counterexample. -/
def destroyedSegment : Segment := ((plainSegment "c5" 1 2).destroy true).1

/-- C5 counterexample: after `destroy()` on a deleteable segment, `update`
still commits new fields — mutation is not rejected, because none of the
mutating operations consult the destroyed flag. -/
theorem c5_counterexample :
    destroyedSegment.isDestroyed = true ∧
    destroyedSegment.start = 1 ∧
    (destroyedSegment.update { start := some 5 }).start = 5 := by
  exact ⟨rfl, rfl, rfl⟩

/-- C5 (amended): after `destroy()` on a deleteable, not-yet-destroyed
segment, the segment is marked destroyed and only repeated destruction is
rejected (a further `destroy` is a no-op emitting nothing); the other mutation
operations are not gated on destruction and keep following their own
`updateable`/`deleteable` guards. -/
theorem c5_destroy_idempotent (s : Segment) (n n' : Bool)
    (hd : s.deleteable = true) (hnd : s.isDestroyed = false) :
    ((s.destroy n).1.isDestroyed = true) ∧
    ((s.destroy n).1.destroy n' = ((s.destroy n).1, [])) := by
  have hguard : ¬(s.deleteable = false ∨ s.isDestroyed = true) := by
    rintro (h | h)
    · rw [hd] at h
      exact absurd h (by simp)
    · rw [hnd] at h
      exact absurd h (by simp)
  unfold Segment.destroy
  rw [if_neg hguard]
  refine ⟨rfl, ?_⟩
  rw [if_pos (Or.inr rfl)]

/-- C5 witness: destroying a fresh deleteable segment marks it destroyed and a
second `destroy` is a no-op. -/
theorem c5_witness :
    (plainSegment "w5" 0 1).deleteable = true ∧
    (plainSegment "w5" 0 1).isDestroyed = false ∧
    (((plainSegment "w5" 0 1).destroy true).1.isDestroyed = true ∧
     ((plainSegment "w5" 0 1).destroy true).1.destroy false
        = (((plainSegment "w5" 0 1).destroy true).1, [])) :=
  ⟨rfl, rfl, c5_destroy_idempotent (plainSegment "w5" 0 1) true false rfl rfl⟩

/-- C8: on an updateable segment whose color is at its base value, selecting
(`handleSelected true`, darkening by 50%) and then deselecting
(`handleSelected false`, resetting to base) round-trips the color back to the
original value, and leaves `selected = false`. -/
theorem c8_selected_roundtrip (s : Segment)
    (hu : s.updateable = true) (hb : s.color.rgba = s.color.base) :
    (((s.handleSelected (some true)).1.handleSelected (some false)).1.color
        = s.color) ∧
    ((s.handleSelected (some true)).1.handleSelected (some false)).1.selected
        = false := by
  obtain ⟨i0, a0, b0, c0, hc0, se0, hl0, up0, de0, vi0, hw0, dr0, dp0, ge0, ds0⟩ := s
  obtain ⟨cb, cr⟩ := c0
  dsimp only at hu hb
  subst hu
  subst hb
  simp [Segment.handleSelected, Segment.setColorDarken,
    RgbaColorArray.darken, RgbaColorArray.reset]

/-- C8 witness: the round trip at a concrete base-colored segment. -/
theorem c8_witness :
    (plainSegment "w8" 0 1).updateable = true ∧
    (plainSegment "w8" 0 1).color.rgba = (plainSegment "w8" 0 1).color.base ∧
    ((((plainSegment "w8" 0 1).handleSelected
        (some true)).1.handleSelected (some false)).1.color
      = (plainSegment "w8" 0 1).color ∧
     (((plainSegment "w8" 0 1).handleSelected
        (some true)).1.handleSelected (some false)).1.selected = false) :=
  ⟨rfl, rfl, c8_selected_roundtrip (plainSegment "w8" 0 1) rfl rfl⟩

/-- C2: a pure-move drag step (neither edge grabbed at pointer-down) on an
updateable segment whose grab-time bounds satisfy
`0 ≤ start ≤ end ≤ duration` commits bounds whose width is exactly the
grab-time width, and which lie within `[0, duration]`, for every pointer
position. -/
theorem c2_pure_move_preserves_width (s : Segment) (w : Waveform)
    (v : Visualizer) (cursorX : ℚ) (dsp : DragStart)
    (hu : s.updateable = true)
    (hdsp : s.draggingStartPosition = some dsp)
    (hedge : s.isGrabbingEdge = { isRightEdge := false, isLeftEdge := false })
    (h0 : 0 ≤ dsp.start) (h1 : dsp.start ≤ dsp.«end»)
    (h2 : dsp.«end» ≤ w.duration) :
    ((s.handleDrag w v cursorX).1.«end» - (s.handleDrag w v cursorX).1.start
        = dsp.«end» - dsp.start) ∧
    0 ≤ (s.handleDrag w v cursorX).1.start ∧
    (s.handleDrag w v cursorX).1.start ≤ (s.handleDrag w v cursorX).1.«end» ∧
    (s.handleDrag w v cursorX).1.«end» ≤ w.duration := by
  obtain ⟨i0, a0, b0, c0, hc0, se0, hl0, up0, de0, vi0, hw0, dr0, dp0, ge0, ds0⟩ := s
  obtain ⟨g, a, b⟩ := dsp
  dsimp only at hu hdsp hedge h0 h1 h2
  subst hu
  subst hdsp
  subst hedge
  simp [Segment.handleDrag, Segment.updatePosition]
  generalize dragSeconds { grabPosition := g, start := a, «end» := b } v w.duration cursorX = d
  have hwd : (0:ℚ) ≤ w.duration - (b - a) := by linarith
  set ns := clamp (a + d) 0 (w.duration - (b - a)) with hns
  have hns0 : 0 ≤ ns := le_clamp_left _ _ _ hwd
  have hnsu : ns ≤ w.duration - (b - a) := clamp_le_right _ _ _
  have hkey : clamp (b + d) (ns + (b - a)) w.duration = ns + (b - a) := by
    rw [hns]
    exact drag_move_eq a b w.duration d h0 h1 h2
  rw [hkey]
  have h1c : clamp ns 0 w.duration = ns :=
    clamp_eq_self _ _ _ hns0 (by linarith)
  have h2c : clamp (ns + (b - a)) 0 w.duration = ns + (b - a) :=
    clamp_eq_self _ _ _ (by linarith) (by linarith)
  rw [h1c, h2c]
  rw [if_neg (show ¬(ns + (b - a) < ns) by linarith)]
  dsimp only
  exact ⟨by ring, hns0, by linarith, by linarith⟩

/-- A waveform of duration 100 at zoom 1. -/
def wave100 : Waveform := { duration := 100, zoom := 1, playing := false }

/-- A visualizer whose zoomed width is 100 px, not scrolled. -/
def vis100 : Visualizer := { width := 1000, scrollLeft := 0, zoomedWidth := 100 }

/-- Grab state: grabbed at pixel 0 with bounds `[10, 20]`. -/
def grab10 : DragStart := { grabPosition := 0, start := 10, «end» := 20 }

/-- A segment armed for a pure-move drag (no edge grabbed). -/
def dragSegMove : Segment :=
  { plainSegment "m" 10 20 with draggingStartPosition := some grab10 }

/-- C2 witness: a pure-move drag of the `[10, 20]` segment by `+50` seconds
keeps the width at 10 and the bounds within `[0, 100]`. -/
theorem c2_witness :
    dragSegMove.updateable = true ∧
    dragSegMove.draggingStartPosition = some grab10 ∧
    (((dragSegMove.handleDrag wave100 vis100 50).1.«end»
        - (dragSegMove.handleDrag wave100 vis100 50).1.start
        = grab10.«end» - grab10.start) ∧
      0 ≤ (dragSegMove.handleDrag wave100 vis100 50).1.start ∧
      (dragSegMove.handleDrag wave100 vis100 50).1.start
        ≤ (dragSegMove.handleDrag wave100 vis100 50).1.«end» ∧
      (dragSegMove.handleDrag wave100 vis100 50).1.«end» ≤ wave100.duration) :=
  ⟨rfl, rfl,
    c2_pure_move_preserves_width dragSegMove wave100 vis100 50 grab10
      rfl rfl rfl (by decide) (by decide) (by decide)⟩

/-- A segment armed for a left-edge resize (left edge grabbed). -/
def dragSegLeft : Segment :=
  { plainSegment "l" 10 20 with
      draggingStartPosition := some grab10
      isGrabbingEdge := { isRightEdge := false, isLeftEdge := true } }

/-- C3 counterexample: dragging the left edge of the `[10, 20]` segment by
`+50` seconds moves the grabbed edge past the fixed right edge; the swap in
`updatePosition` then commits `end = 60`, not the grab-time `end = 20`. -/
theorem c3_counterexample :
    dragSegLeft.isGrabbingEdge = { isRightEdge := false, isLeftEdge := true } ∧
    dragSegLeft.draggingStartPosition = some grab10 ∧
    grab10.«end» = 20 ∧
    (dragSegLeft.handleDrag wave100 vis100 50).1.«end» = 60 ∧
    ¬((dragSegLeft.handleDrag wave100 vis100 50).1.«end» = grab10.«end») := by
  refine ⟨rfl, rfl, rfl, ?_, ?_⟩ <;>
    norm_num [dragSegLeft, plainSegment, grab10, wave100, vis100,
      Segment.handleDrag, Segment.updatePosition, dragSeconds, pixelsToTime,
      clamp]

/-- C3 (amended): on an updateable armed segment whose grab-time bounds
satisfy `0 ≤ start ≤ end ≤ duration`, a left-edge resize keeps `end` fixed
provided the moved edge does not cross the fixed end
(`start + delta ≤ end`), and a right-edge resize keeps `start` fixed provided
the moved edge does not cross the fixed start (`start ≤ end + delta`); when
the moving edge crosses, the swap in `updatePosition` changes the fixed
bound. -/
theorem c3_resize_fixed_edge (s : Segment) (w : Waveform) (v : Visualizer)
    (cursorX : ℚ) (dsp : DragStart)
    (hu : s.updateable = true)
    (hdsp : s.draggingStartPosition = some dsp)
    (h0 : 0 ≤ dsp.start) (h1 : dsp.start ≤ dsp.«end»)
    (h2 : dsp.«end» ≤ w.duration) :
    (s.isGrabbingEdge = { isRightEdge := false, isLeftEdge := true } →
      dsp.start + dragSeconds dsp v w.duration cursorX ≤ dsp.«end» →
      (s.handleDrag w v cursorX).1.«end» = dsp.«end») ∧
    (s.isGrabbingEdge = { isRightEdge := true, isLeftEdge := false } →
      dsp.start ≤ dsp.«end» + dragSeconds dsp v w.duration cursorX →
      (s.handleDrag w v cursorX).1.start = dsp.start) := by
  obtain ⟨i0, a0, b0, c0, hc0, se0, hl0, up0, de0, vi0, hw0, dr0, dp0, ge0, ds0⟩ := s
  obtain ⟨g, a, b⟩ := dsp
  dsimp only at hu hdsp h0 h1 h2
  subst hu
  subst hdsp
  constructor
  · intro hedge hcross
    dsimp only at hedge
    subst hedge
    dsimp only at hcross
    simp [Segment.handleDrag, Segment.updatePosition]
    set d := dragSeconds { grabPosition := g, start := a, «end» := b } v w.duration cursorX with hd
    have hbc : clamp b 0 w.duration = b := clamp_eq_self _ _ _ (by linarith) h2
    have hle : clamp (a + d) 0 w.duration ≤ b := by
      unfold clamp
      exact le_trans (min_le_left _ _) (max_le hcross (by linarith))
    rw [hbc, if_neg (not_lt.mpr hle)]
  · intro hedge hcross
    dsimp only at hedge
    subst hedge
    dsimp only at hcross
    simp [Segment.handleDrag, Segment.updatePosition]
    set d := dragSeconds { grabPosition := g, start := a, «end» := b } v w.duration cursorX with hd
    set ns := clamp (a + d) 0 (w.duration - (b - a)) with hns
    have hwd : (0:ℚ) ≤ w.duration - (b - a) := by linarith
    have hns0 : 0 ≤ ns := le_clamp_left _ _ _ hwd
    have hac : clamp a 0 w.duration = a := clamp_eq_self _ _ _ h0 (by linarith)
    have haet : a ≤ clamp (b + d) ns w.duration := by
      unfold clamp
      exact le_min (le_trans hcross (le_max_left _ _)) (by linarith)
    have het0 : 0 ≤ clamp (b + d) ns w.duration := le_trans h0 haet
    have hetd : clamp (b + d) ns w.duration ≤ w.duration := clamp_le_right _ _ _
    have houter : clamp (clamp (b + d) ns w.duration) 0 w.duration
        = clamp (b + d) ns w.duration := clamp_eq_self _ _ _ het0 hetd
    rw [hac, houter, if_neg (not_lt.mpr haet)]

/-- C3 witness: a left-edge resize of the `[10, 20]` segment by `+5` seconds
(no crossing) keeps the fixed `end = 20`. -/
theorem c3_witness :
    dragSegLeft.updateable = true ∧
    grab10.start + dragSeconds grab10 vis100 wave100.duration 5 ≤ grab10.«end» ∧
    (dragSegLeft.handleDrag wave100 vis100 5).1.«end» = grab10.«end» :=
  ⟨rfl,
    by norm_num [grab10, dragSeconds, pixelsToTime, vis100, wave100],
    (c3_resize_fixed_edge dragSegLeft wave100 vis100 5 grab10 rfl rfl
        (by decide) (by decide) (by decide)).1 rfl
      (by norm_num [grab10, dragSeconds, pixelsToTime, vis100, wave100])⟩

end AudioUltra
